import Mathlib

/-!
Verification of the Smart-AirBNB content-based recommendation engine.

The repository's web layer lives in `src/app.py`; the recommendation
engine itself (module `recommendations`, object `recommendation_engine`)
is imported there but its source file is not part of the checked-out
sources, so the engine's data model and operations are modelled from the
specification (each such definition carries a doc comment saying so),
while the Flask route handlers in `src/app.py` are translated directly
from the code.

Real-valued quantities of the program are modelled by rationals `ℚ`
(the spec speaks of reals; NaN/infinity are not representable, which
matches the spec's requirement that weight values be finite).
-/

namespace SmartAirbnb

/-- Modelled from the spec (§3, the `recommendations` module is absent
from src/): immutable per-listing snapshot of recommendation-relevant
attributes.  `name` is carried along because the Search Service (§4.4)
matches against listing name and the summary projection (§6) exposes it.
Absent numeric fields are `Option`s, never silently defaulted to 0. -/
structure ListingFeatures where
  id : ℕ
  name : String
  price : ℚ
  room_type : String
  accommodates : Option ℕ
  bedrooms : Option ℕ
  beds : Option ℕ
  bathrooms : Option ℚ
  latitude : ℚ
  longitude : ℚ
  avg_rating : Option ℚ
  review_count : ℕ
  amenities : Finset String
  neighbourhood : String
deriving DecidableEq

/-- Modelled from the spec (§3, §4.5): the weighting scheme over the
fixed enumerated feature set price, location, room_type, capacity,
rating, amenities. -/
structure SimilarityWeights where
  price : ℚ
  location : ℚ
  room_type : ℚ
  capacity : ℚ
  rating : ℚ
  amenities : ℚ
deriving DecidableEq

/-- Sum of all weights of a configuration. -/
def wSum (w : SimilarityWeights) : ℚ :=
  w.price + w.location + w.room_type + w.capacity + w.rating + w.amenities

/-- Tolerance for the weight-sum invariant (spec §3: ±1e-6). -/
def tol : ℚ := 1 / 1000000

/-- Modelled from the spec (§3): the documented default configuration
installed at process start; the spec leaves the concrete values open,
requiring only that they satisfy the invariant (sum = 1). -/
def defaultWeights : SimilarityWeights :=
  ⟨1/5, 1/5, 3/20, 3/20, 3/20, 3/20⟩

/-- A configuration is valid when every weight is non-negative and the
sum is 1.0 within tolerance (spec §3, §8). -/
def validWeights (w : SimilarityWeights) : Prop :=
  0 ≤ w.price ∧ 0 ≤ w.location ∧ 0 ≤ w.room_type ∧ 0 ≤ w.capacity ∧
    0 ≤ w.rating ∧ 0 ≤ w.amenities ∧ |wSum w - 1| ≤ tol

instance : DecidablePred validWeights := fun w => by
  unfold validWeights; infer_instance

/-- Domain constant (spec §4.1/§9, implementer's choice): normalization
range for price; the spec's worked scenario (§8) uses range = 1000. -/
def priceRange : ℚ := 1000

/-- Domain constant: normalization range for the capacity feature. -/
def capacityRange : ℚ := 16

/-- Domain constant: normalization range for ratings (ratings lie in
[0,5], spec §3). -/
def ratingRange : ℚ := 5

/-- Domain constant: decay distance for the geospatial feature
(spec §4.1 `max_distance_km`). -/
def maxDistanceKm : ℚ := 50

/-- Clamp a rational to [0,1] (spec §4.1: "Clamp the result to [0,1]"). -/
def clamp01 (x : ℚ) : ℚ := min 1 (max 0 x)

/-- Modelled from the spec (§4.1): numeric-feature similarity
`1 - |a - b| / range`, clamped to [0,1]. -/
def numSim (x y range : ℚ) : ℚ := clamp01 (1 - |x - y| / range)

/-- Modelled from the spec (§4.1): numeric similarity under the
missing-value policy — if either side is absent the feature contributes
the neutral value 0.5. -/
def optNumSim (a b : Option ℚ) (range : ℚ) : ℚ :=
  match a, b with
  | some x, some y => numSim x y range
  | _, _ => 1/2

/-- Modelled from the spec (§4.1): categorical similarity, 1 if equal
and 0 otherwise. -/
def catSim (a b : String) : ℚ := if a = b then 1 else 0

/-- Modelled from the spec (§4.1): map a distance (km) to similarity by
the decaying function `max (0, 1 - d / max_distance_km)`. -/
def geoSim (d : ℚ) : ℚ := max 0 (1 - d / maxDistanceKm)

/-- Modelled from the spec (§4.1): Jaccard index of two amenity sets,
defined as 1.0 when both sets are empty. -/
def jaccard (A B : Finset String) : ℚ :=
  if A ∪ B = ∅ then 1 else ((A ∩ B).card : ℚ) / ((A ∪ B).card : ℚ)

/-- Modelled from the spec (§4.1): the spec prescribes haversine
great-circle distance in kilometres for the geospatial feature; since
the engine's source is absent we abstract the distance function,
recording the single property the development relies on: distances are
non-negative. -/
structure GeoModel where
  distKm : ℚ → ℚ → ℚ → ℚ → ℚ
  dist_nonneg : ∀ la1 lo1 la2 lo2, 0 ≤ distKm la1 lo1 la2 lo2

/-- Per-feature similarity of the price feature. -/
def simPrice (a b : ListingFeatures) : ℚ := numSim a.price b.price priceRange

/-- Per-feature similarity of the geospatial feature. -/
def simLocation (g : GeoModel) (a b : ListingFeatures) : ℚ :=
  geoSim (g.distKm a.latitude a.longitude b.latitude b.longitude)

/-- Per-feature similarity of the room-type feature. -/
def simRoomType (a b : ListingFeatures) : ℚ := catSim a.room_type b.room_type

/-- Per-feature similarity of the capacity feature (the `accommodates`
count, a numeric feature per §4.1, with the missing-value policy). -/
def simCapacity (a b : ListingFeatures) : ℚ :=
  optNumSim (a.accommodates.map (fun n => (n : ℚ)))
    (b.accommodates.map (fun n => (n : ℚ))) capacityRange

/-- Per-feature similarity of the rating feature (missing-value policy
applies when a listing has no reviews). -/
def simRating (a b : ListingFeatures) : ℚ :=
  optNumSim a.avg_rating b.avg_rating ratingRange

/-- Per-feature similarity of the amenity-set feature. -/
def simAmenities (a b : ListingFeatures) : ℚ := jaccard a.amenities b.amenities

/-- Modelled from the spec (§4.2): the similarity scorer — weighted sum
of per-feature similarities over the enumerated feature set, with the
mandated special case that self-comparison (same listing id, ids being
unique catalog keys) yields exactly 1.0 independent of the
missing-value policy. -/
def score (g : GeoModel) (w : SimilarityWeights) (a b : ListingFeatures) : ℚ :=
  if a.id = b.id then 1
  else
    w.price * simPrice a b + w.location * simLocation g a b +
      w.room_type * simRoomType a b + w.capacity * simCapacity a b +
      w.rating * simRating a b + w.amenities * simAmenities a b

/-- `clamp01` lands in [0,1]. -/
lemma clamp01_mem (x : ℚ) : 0 ≤ clamp01 x ∧ clamp01 x ≤ 1 := by
  unfold clamp01
  constructor
  · exact le_min (by norm_num) (le_max_left 0 x)
  · exact min_le_left 1 _

/-- `numSim` lands in [0,1]. -/
lemma numSim_mem (x y range : ℚ) : 0 ≤ numSim x y range ∧ numSim x y range ≤ 1 :=
  clamp01_mem _

/-- `optNumSim` lands in [0,1]. -/
lemma optNumSim_mem (a b : Option ℚ) (range : ℚ) :
    0 ≤ optNumSim a b range ∧ optNumSim a b range ≤ 1 := by
  unfold optNumSim
  match a, b with
  | some x, some y => exact numSim_mem x y range
  | some _, none => norm_num
  | none, some _ => norm_num
  | none, none => norm_num

/-- `catSim` lands in [0,1]. -/
lemma catSim_mem (a b : String) : 0 ≤ catSim a b ∧ catSim a b ≤ 1 := by
  unfold catSim
  split <;> norm_num

/-- `geoSim` of a non-negative distance lands in [0,1]. -/
lemma geoSim_mem (d : ℚ) (hd : 0 ≤ d) : 0 ≤ geoSim d ∧ geoSim d ≤ 1 := by
  unfold geoSim
  refine ⟨le_max_left 0 _, ?_⟩
  have hpos : (0 : ℚ) < maxDistanceKm := by unfold maxDistanceKm; norm_num
  have : 1 - d / maxDistanceKm ≤ 1 := by
    have : 0 ≤ d / maxDistanceKm := div_nonneg hd hpos.le
    linarith
  exact max_le (by norm_num) this

/-- `jaccard` lands in [0,1]. -/
lemma jaccard_mem (A B : Finset String) : 0 ≤ jaccard A B ∧ jaccard A B ≤ 1 := by
  unfold jaccard
  split
  · norm_num
  · rename_i h
    have hcard : 0 < ((A ∪ B).card : ℚ) := by
      have : (A ∪ B).Nonempty := Finset.nonempty_iff_ne_empty.mpr h
      exact_mod_cast Finset.card_pos.mpr this
    constructor
    · exact div_nonneg (by positivity) hcard.le
    · rw [div_le_one hcard]
      exact_mod_cast Finset.card_le_card Finset.inter_subset_union

/-- Every per-feature similarity used by the scorer lands in [0,1]. -/
lemma simPrice_mem (a b : ListingFeatures) : 0 ≤ simPrice a b ∧ simPrice a b ≤ 1 :=
  numSim_mem _ _ _

lemma simLocation_mem (g : GeoModel) (a b : ListingFeatures) :
    0 ≤ simLocation g a b ∧ simLocation g a b ≤ 1 :=
  geoSim_mem _ (g.dist_nonneg _ _ _ _)

lemma simRoomType_mem (a b : ListingFeatures) :
    0 ≤ simRoomType a b ∧ simRoomType a b ≤ 1 :=
  catSim_mem _ _

lemma simCapacity_mem (a b : ListingFeatures) :
    0 ≤ simCapacity a b ∧ simCapacity a b ≤ 1 :=
  optNumSim_mem _ _ _

lemma simRating_mem (a b : ListingFeatures) :
    0 ≤ simRating a b ∧ simRating a b ≤ 1 :=
  optNumSim_mem _ _ _

lemma simAmenities_mem (a b : ListingFeatures) :
    0 ≤ simAmenities a b ∧ simAmenities a b ≤ 1 :=
  jaccard_mem _ _

/-- The weighted sum form of the scorer is bounded by the weight sum
when all weights are non-negative, and is itself non-negative. -/
lemma score_bounds (g : GeoModel) (w : SimilarityWeights) (a b : ListingFeatures)
    (hp : 0 ≤ w.price) (hl : 0 ≤ w.location) (hr : 0 ≤ w.room_type)
    (hc : 0 ≤ w.capacity) (hg : 0 ≤ w.rating) (ha : 0 ≤ w.amenities) :
    0 ≤ score g w a b ∧ score g w a b ≤ wSum w ∨ score g w a b = 1 := by
  unfold score
  split
  · right; rfl
  · left
    obtain ⟨h1a, h1b⟩ := simPrice_mem a b
    obtain ⟨h2a, h2b⟩ := simLocation_mem g a b
    obtain ⟨h3a, h3b⟩ := simRoomType_mem a b
    obtain ⟨h4a, h4b⟩ := simCapacity_mem a b
    obtain ⟨h5a, h5b⟩ := simRating_mem a b
    obtain ⟨h6a, h6b⟩ := simAmenities_mem a b
    unfold wSum
    constructor
    · have := mul_nonneg hp h1a
      have := mul_nonneg hl h2a
      have := mul_nonneg hr h3a
      have := mul_nonneg hc h4a
      have := mul_nonneg hg h5a
      have := mul_nonneg ha h6a
      linarith
    · have := mul_le_mul_of_nonneg_left h1b hp
      have := mul_le_mul_of_nonneg_left h2b hl
      have := mul_le_mul_of_nonneg_left h3b hr
      have := mul_le_mul_of_nonneg_left h4b hc
      have := mul_le_mul_of_nonneg_left h5b hg
      have := mul_le_mul_of_nonneg_left h6b ha
      linarith

/-- The recognized feature names accepted by the weight-update boundary
(spec §3/§9: the fixed enumerated feature set, unknown keys rejected). -/
def featureNames : List String :=
  ["price", "location", "room_type", "capacity", "rating", "amenities"]

/-- Value a candidate mapping assigns to a feature name: the last
binding wins (a JSON object has unique keys, later duplicates
override), absent keys contribute 0. -/
def lookupW (m : List (String × ℚ)) (f : String) : ℚ :=
  match m.reverse.find? (fun kv => kv.1 == f) with
  | some kv => kv.2
  | none => 0

/-- Modelled from the spec (§9: parse the dynamic payload into the
fixed enumerated feature set before any arithmetic): the configuration
a candidate mapping denotes. -/
def parseWeights (m : List (String × ℚ)) : SimilarityWeights :=
  ⟨lookupW m "price", lookupW m "location", lookupW m "room_type",
    lookupW m "capacity", lookupW m "rating", lookupW m "amenities"⟩

/-- Modelled from the spec (§4.5): a candidate mapping passes
validation when every key is a recognized feature name, every value is
non-negative (values are rationals, hence finite), and the sum across
all recognized features is 1.0 within tolerance. -/
def validCandidate (m : List (String × ℚ)) : Prop :=
  (∀ kv ∈ m, kv.1 ∈ featureNames) ∧ (∀ kv ∈ m, 0 ≤ kv.2) ∧
    |wSum (parseWeights m) - 1| ≤ tol

instance : DecidablePred validCandidate := fun m => by
  unfold validCandidate; infer_instance

/-- Modelled from the spec (§4.5): `update_weights` — validate the
candidate; on success the new configuration entirely replaces the old
one, on failure the live configuration is left untouched and `false`
is reported to the caller. -/
def update_similarity_weights (m : List (String × ℚ)) (st : SimilarityWeights) :
    Bool × SimilarityWeights :=
  if validCandidate m then (true, parseWeights m) else (false, st)

/-- Modelled from the spec (§4.5): `get_weights` returns the current
live configuration. -/
def get_weights (st : SimilarityWeights) : SimilarityWeights := st

/-- The live configuration reached from the default by a sequence of
(successful or rejected) update calls — the reachable states of the
configuration manager. -/
def weightsAfter (us : List (List (String × ℚ))) : SimilarityWeights :=
  us.foldl (fun st u => (update_similarity_weights u st).2) defaultWeights

/-- Translated from `src/app.py` (`update_similarity_weights` route,
lines 673-688): a POST whose parsed JSON body is absent or falsy (an
empty mapping) is answered 400 "No weights provided" before the engine
is consulted; otherwise the engine's update runs and the route answers
200 on success and 400 "Invalid weights. Must sum to 1.0" on
rejection.  The result is (HTTP status, message, engine state after
the request). -/
def update_weights_route (body : Option (List (String × ℚ)))
    (st : SimilarityWeights) : (ℕ × String) × SimilarityWeights :=
  match body with
  | none => ((400, "No weights provided"), st)
  | some m =>
    if m = [] then ((400, "No weights provided"), st)
    else
      let r := update_similarity_weights m st
      if r.1 then ((200, "Weights updated successfully"), r.2)
      else ((400, "Invalid weights. Must sum to 1.0"), r.2)

/-- The summary projection returned by search (spec §6: id, name,
neighbourhood, price summary fields). -/
structure ListingSummary where
  id : ℕ
  name : String
  neighbourhood : String
  price : ℚ
deriving DecidableEq

/-- Summary projection of a listing. -/
def toSummary (l : ListingFeatures) : ListingSummary :=
  ⟨l.id, l.name, l.neighbourhood, l.price⟩

/-- Case-folded character sequence of a string. -/
def lowerChars (s : String) : List Char := s.toList.map Char.toLower

/-- Modelled from the spec (§4.4): a listing matches a query when the
query appears case-insensitively as a substring of the listing name or
of the neighbourhood name. -/
def matchesQuery (q : String) (l : ListingFeatures) : Bool :=
  decide (lowerChars q <:+: lowerChars l.name) ||
    decide (lowerChars q <:+: lowerChars l.neighbourhood)

/-- Modelled from the spec (§4.4): the Search Service — empty query
returns the empty sequence immediately; otherwise the matching
listings in (deterministic) catalog order, truncated to `limit`, as
summary projections. -/
def search_listings (cat : List ListingFeatures) (q : String) (limit : ℕ) :
    List ListingSummary :=
  if q = "" then []
  else ((cat.filter (fun l => matchesQuery q l)).take limit).map toSummary

/-- Translated from `src/app.py` (`search_listings` route, lines
635-645): the `q` parameter defaults to the empty string when missing;
a falsy query is answered with an empty sequence before the engine is
consulted; otherwise the engine search runs with limit 20. -/
def search_route (cat : List ListingFeatures) (qOpt : Option String) :
    List ListingSummary :=
  let q := qOpt.getD ""
  if q = "" then [] else search_listings cat q 20

/-- Modelled from the spec (§6): the Catalog Accessor's
`get_listing(id)` — the listing with the given id, if any. -/
def get_listing (cat : List ListingFeatures) (lid : ℕ) : Option ListingFeatures :=
  cat.find? (fun l => l.id == lid)

/-- Translated from `src/app.py` (`get_listing_details` route, lines
661-671), with the engine's `get_listing_details_for_comparison`
modelled from the spec (§6 `get_listing_detail`): the full
ListingFeatures projection when the id exists, otherwise HTTP 404 with
a structured error payload. -/
def get_listing_details_route (cat : List ListingFeatures) (lid : ℕ) :
    Except (ℕ × String) ListingFeatures :=
  match get_listing cat lid with
  | some l => .ok l
  | none => .error (404, "Listing not found")

/-- The structured failure of the recommendation engine (spec §7). -/
inductive RecError where
  | NotFound
deriving DecidableEq

/-- Comparison used to rank recommendation results: score descending,
ties broken by listing id ascending (spec §4.3). -/
def recLE (p q : ℕ × ℚ) : Bool :=
  decide (q.2 < p.2) || (decide (p.2 = q.2) && decide (p.1 ≤ q.1))

/-- Modelled from the spec (§4.3): the Recommendation Query Engine —
fail with NotFound when the id is absent from the catalog snapshot;
otherwise score every other listing against the target under the
weight snapshot, discard scores strictly below the threshold, sort by
score descending with ties by id ascending, truncate to
`max_results`. -/
def get_listing_recommendations (g : GeoModel) (cat : List ListingFeatures)
    (w : SimilarityWeights) (lid k : ℕ) (t : ℚ) :
    Except RecError (List (ℕ × ℚ)) :=
  match get_listing cat lid with
  | none => .error .NotFound
  | some target =>
    let cands := cat.filter (fun l => l.id != lid)
    let scored := cands.map (fun l => (l.id, score g w target l))
    let kept := scored.filter (fun p => decide (t ≤ p.2))
    .ok ((kept.mergeSort recLE).take k)

/-- The ranking comparison is transitive. -/
lemma recLE_trans : ∀ a b c : ℕ × ℚ,
    recLE a b = true → recLE b c = true → recLE a c = true := by
  intro a b c hab hbc
  unfold recLE at *
  simp only [Bool.or_eq_true, Bool.and_eq_true, decide_eq_true_eq] at *
  rcases hab with h1 | ⟨h1, h2⟩ <;> rcases hbc with h3 | ⟨h3, h4⟩
  · exact Or.inl (lt_trans h3 h1)
  · exact Or.inl (h3 ▸ h1)
  · exact Or.inl (h1 ▸ h3)
  · exact Or.inr ⟨h1.trans h3, le_trans h2 h4⟩

/-- The ranking comparison is total. -/
lemma recLE_total : ∀ a b : ℕ × ℚ, recLE a b || recLE b a := by
  intro a b
  unfold recLE
  simp only [Bool.or_eq_true, Bool.and_eq_true, decide_eq_true_eq]
  rcases lt_trichotomy a.2 b.2 with h | h | h
  · exact Or.inr (Or.inl h)
  · rcases Nat.le_total a.1 b.1 with hn | hn
    · exact Or.inl (Or.inr ⟨h, hn⟩)
    · exact Or.inr (Or.inr ⟨h.symm, hn⟩)
  · exact Or.inl (Or.inl h)

/-- A concrete instance of the abstract geospatial distance model,
used to evaluate the development on concrete inputs. -/
def taxiGeo : GeoModel where
  distKm := fun la1 lo1 la2 lo2 => |la1 - la2| + |lo1 - lo2|
  dist_nonneg := by intro la1 lo1 la2 lo2; positivity

/-- Concrete listing used to evaluate the development. -/
def demoA : ListingFeatures :=
  ⟨1, "Cozy loft", 100, "Entire home/apt", some 2, some 1, some 1, some 1,
    43, -79, some 4, 10, {"wifi", "kitchen"}, "Downtown"⟩

/-- Concrete listing with several absent features. -/
def demoB : ListingFeatures :=
  ⟨2, "Sunny room", 120, "Entire home/apt", none, none, none, none,
    43, -79, none, 0, {"wifi"}, "Downtown"⟩

/-- Concrete listing in another neighbourhood. -/
def demoC : ListingFeatures :=
  ⟨3, "Quiet suite", 500, "Private room", some 4, some 2, some 2, some 2,
    44, -80, some 5, 3, ∅, "Annex"⟩

/-- Concrete catalog used to evaluate the development. -/
def demoCat : List ListingFeatures := [demoA, demoB, demoC]

/-- The default configuration satisfies the weight invariant. -/
lemma validWeights_default : validWeights defaultWeights := by
  unfold validWeights defaultWeights wSum tol
  norm_num

/-- A candidate mapping with non-negative values denotes non-negative
per-feature weights. -/
lemma lookupW_nonneg (m : List (String × ℚ)) (f : String)
    (h : ∀ kv ∈ m, 0 ≤ kv.2) : 0 ≤ lookupW m f := by
  unfold lookupW
  cases hfind : m.reverse.find? (fun kv => kv.1 == f) with
  | none => exact le_refl 0
  | some kv =>
    exact h kv (List.mem_reverse.mp (List.mem_of_find?_eq_some hfind))

/-- A candidate mapping that passes validation denotes a valid
configuration. -/
lemma validCandidate_parse (m : List (String × ℚ)) (h : validCandidate m) :
    validWeights (parseWeights m) := by
  obtain ⟨-, hnn, hsum⟩ := h
  exact ⟨lookupW_nonneg m _ hnn, lookupW_nonneg m _ hnn, lookupW_nonneg m _ hnn,
    lookupW_nonneg m _ hnn, lookupW_nonneg m _ hnn, lookupW_nonneg m _ hnn, hsum⟩

/-- One update call, successful or rejected, preserves the weight
invariant. -/
lemma update_preserves_valid (m : List (String × ℚ)) (st : SimilarityWeights)
    (h : validWeights st) : validWeights (update_similarity_weights m st).2 := by
  unfold update_similarity_weights
  split
  · exact validCandidate_parse m (by assumption)
  · exact h

/-- Every state reached by a sequence of update calls from a valid
state is valid. -/
lemma foldl_updates_valid (us : List (List (String × ℚ))) :
    ∀ st : SimilarityWeights, validWeights st →
      validWeights (us.foldl (fun st u => (update_similarity_weights u st).2) st) := by
  induction us with
  | nil => exact fun st h => h
  | cons u us ih =>
    intro st h
    exact ih _ (update_preserves_valid u st h)

/-- C5: at every reachable state of the configuration manager — after
initialization with the default and after any sequence of successful
or rejected update calls — the live configuration returned by
`get_weights` has all values non-negative and sums to 1.0 within
tolerance ±1e-6. -/
theorem weights_invariant_reachable (us : List (List (String × ℚ))) :
    validWeights (get_weights (weightsAfter us)) :=
  foldl_updates_valid us defaultWeights validWeights_default

/-- C4: a candidate weight mapping that fails validation (unknown key,
negative value — non-finite values are unrepresentable in the rational
model — or sum of weights off 1.0 beyond tolerance) is rejected
wholesale: the update reports failure and a subsequent `get_weights`
observes the configuration unchanged. -/
theorem update_weights_reject (m : List (String × ℚ)) (st : SimilarityWeights)
    (h : (∃ kv ∈ m, kv.1 ∉ featureNames) ∨ (∃ kv ∈ m, kv.2 < 0) ∨
      ¬|wSum (parseWeights m) - 1| ≤ tol) :
    update_similarity_weights m st = (false, st) ∧
      get_weights (update_similarity_weights m st).2 = get_weights st := by
  have hnv : ¬validCandidate m := by
    rintro ⟨h1, h2, h3⟩
    rcases h with ⟨kv, hkv, hn⟩ | ⟨kv, hkv, hneg⟩ | hs
    · exact hn (h1 kv hkv)
    · exact absurd (h2 kv hkv) (not_le.mpr hneg)
    · exact hs h3
  unfold update_similarity_weights
  rw [if_neg hnv]
  exact ⟨rfl, rfl⟩

/-- C2: for all listings and every weight configuration with
non-negative weights summing to 1, the similarity score lies in the
closed interval [0,1]. -/
theorem score_in_unit_interval (g : GeoModel) (w : SimilarityWeights)
    (a b : ListingFeatures)
    (hnn : 0 ≤ w.price ∧ 0 ≤ w.location ∧ 0 ≤ w.room_type ∧ 0 ≤ w.capacity ∧
      0 ≤ w.rating ∧ 0 ≤ w.amenities)
    (hsum : wSum w = 1) :
    0 ≤ score g w a b ∧ score g w a b ≤ 1 := by
  obtain ⟨h1, h2, h3, h4, h5, h6⟩ := hnn
  rcases score_bounds g w a b h1 h2 h3 h4 h5 h6 with ⟨hl, hu⟩ | he
  · exact ⟨hl, hsum ▸ hu⟩
  · rw [he]; norm_num

/-- C3: scoring a listing against itself yields exactly 1.0 for every
valid configuration, independent of the missing-value policy (the
scorer special-cases self-comparison). -/
theorem score_self_eq_one (g : GeoModel) (w : SimilarityWeights)
    (x : ListingFeatures) (hw : validWeights w) : score g w x x = 1 := by
  unfold score
  rw [if_pos rfl]

/-- C6: for every listing id absent from the catalog snapshot and all
`max_results` and threshold arguments, the recommendation query fails
with the structured NotFound result, never an ordinary result
sequence. -/
theorem recommend_unknown_id_notFound (g : GeoModel)
    (cat : List ListingFeatures) (w : SimilarityWeights) (lid k : ℕ) (t : ℚ)
    (h : lid ∉ cat.map ListingFeatures.id) :
    get_listing_recommendations g cat w lid k t = .error .NotFound := by
  have hfind : cat.find? (fun l => l.id == lid) = none := by
    rw [List.find?_eq_none]
    intro x hx
    simp only [beq_iff_eq]
    intro hid
    exact h (List.mem_map.mpr ⟨x, hx, hid⟩)
  unfold get_listing_recommendations get_listing
  rw [hfind]

/-- C7: search with an empty or missing query string returns an empty
sequence immediately, for every limit and independent of the catalog —
a defined contract, not an error (engine contract and the route guard
of `src/app.py` lines 635-645). -/
theorem search_empty_query_empty :
    (∀ (cat : List ListingFeatures) (limit : ℕ),
      search_listings cat "" limit = []) ∧
    ∀ cat : List ListingFeatures,
      search_route cat none = [] ∧ search_route cat (some "") = [] :=
  ⟨fun _ _ => rfl, fun _ => ⟨rfl, rfl⟩⟩

/-- C10: a POST to the weights endpoint whose JSON body is absent or
parses to an empty mapping is answered HTTP 400 "No weights provided"
and leaves the live configuration unchanged (the engine update is
never reached: the route returns before calling it,
`src/app.py` lines 678-681). -/
theorem weights_route_empty_body_rejected (st : SimilarityWeights) :
    update_weights_route none st = ((400, "No weights provided"), st) ∧
      update_weights_route (some []) st = ((400, "No weights provided"), st) :=
  ⟨rfl, rfl⟩

/-- C8: the listing-detail endpoint returns the full ListingFeatures
projection of the listing when the id exists in the catalog, and the
structured 404 not-found result when it does not. -/
theorem listing_detail_contract (cat : List ListingFeatures) (lid : ℕ)
    (hnodup : (cat.map ListingFeatures.id).Nodup) :
    (∀ l ∈ cat, l.id = lid → get_listing_details_route cat lid = .ok l) ∧
      (lid ∉ cat.map ListingFeatures.id →
        get_listing_details_route cat lid = .error (404, "Listing not found")) := by
  constructor
  · intro l hl hid
    have hsome : (cat.find? (fun x => x.id == lid)).isSome := by
      rw [List.find?_isSome]
      exact ⟨l, hl, by simp [hid]⟩
    obtain ⟨l', hl'⟩ := Option.isSome_iff_exists.mp hsome
    have hmem' : l' ∈ cat := List.mem_of_find?_eq_some hl'
    have hid' : l'.id = lid := by
      have := List.find?_some hl'
      simpa using this
    have : l' = l := List.inj_on_of_nodup_map hnodup hmem' hl (hid'.trans hid.symm)
    unfold get_listing_details_route get_listing
    rw [hl', this]
  · intro h
    have hfind : cat.find? (fun l => l.id == lid) = none := by
      rw [List.find?_eq_none]
      intro x hx
      simp only [beq_iff_eq]
      intro hid
      exact h (List.mem_map.mpr ⟨x, hx, hid⟩)
    unfold get_listing_details_route get_listing
    rw [hfind]

/-- C1: for every catalog with unique listing ids, valid weight
configuration, existing listing id, positive `max_results` and
threshold in [0,1], the recommendation sequence never contains the
query listing, has at most `max_results` entries, contains no entry
scored strictly below the threshold, and is strictly sorted by score
descending with ties broken by listing id ascending. -/
theorem recommend_contract (g : GeoModel) (cat : List ListingFeatures)
    (w : SimilarityWeights) (lid k : ℕ) (t : ℚ)
    (hnodup : (cat.map ListingFeatures.id).Nodup)
    (hw : validWeights w)
    (hmem : lid ∈ cat.map ListingFeatures.id)
    (hk : 0 < k) (ht0 : 0 ≤ t) (ht1 : t ≤ 1) :
    ∃ res, get_listing_recommendations g cat w lid k t = .ok res ∧
      (∀ p ∈ res, p.1 ≠ lid) ∧
      res.length ≤ k ∧
      (∀ p ∈ res, t ≤ p.2) ∧
      res.Pairwise (fun p q => q.2 < p.2 ∨ (p.2 = q.2 ∧ p.1 < q.1)) := by
  have hsome : (cat.find? (fun l => l.id == lid)).isSome := by
    rw [List.find?_isSome]
    obtain ⟨l, hl, hid⟩ := List.mem_map.mp hmem
    exact ⟨l, hl, by simp [hid]⟩
  obtain ⟨target, htarget⟩ := Option.isSome_iff_exists.mp hsome
  have hres : get_listing_recommendations g cat w lid k t =
      .ok ((((cat.filter (fun l => l.id != lid)).map
          (fun l => (l.id, score g w target l))).filter
            (fun p => decide (t ≤ p.2))).mergeSort recLE |>.take k) := by
    unfold get_listing_recommendations get_listing
    rw [htarget]
  set cands := cat.filter (fun l => l.id != lid) with hcands
  set scored := cands.map (fun l => (l.id, score g w target l)) with hscored
  set kept := scored.filter (fun p => decide (t ≤ p.2)) with hkept
  refine ⟨(kept.mergeSort recLE).take k, hres, ?_, ?_, ?_, ?_⟩
  · intro p hp
    have hp1 : p ∈ kept :=
      (List.mergeSort_perm kept recLE).mem_iff.mp (List.mem_of_mem_take hp)
    obtain ⟨hp2, -⟩ := List.mem_filter.mp hp1
    obtain ⟨l, hlm, heq⟩ := List.mem_map.mp hp2
    obtain ⟨-, hne⟩ := List.mem_filter.mp hlm
    rw [← heq]
    simpa using hne
  · exact List.length_take_le k _
  · intro p hp
    have hp1 : p ∈ kept :=
      (List.mergeSort_perm kept recLE).mem_iff.mp (List.mem_of_mem_take hp)
    obtain ⟨-, ht⟩ := List.mem_filter.mp hp1
    simpa using ht
  · have hsorted : (kept.mergeSort recLE).Pairwise (fun a b => recLE a b = true) :=
      List.sorted_mergeSort recLE_trans recLE_total kept
    have hids : (kept.map Prod.fst).Nodup := by
      have h2 : scored.map Prod.fst = cands.map ListingFeatures.id := by
        rw [hscored, List.map_map]
        rfl
      have h3 : (kept.map Prod.fst).Sublist (scored.map Prod.fst) :=
        List.Sublist.map _ (List.filter_sublist scored)
      have h4 : (cands.map ListingFeatures.id).Sublist
          (cat.map ListingFeatures.id) :=
        List.Sublist.map _ (List.filter_sublist cat)
      exact List.Nodup.sublist (h2 ▸ h3) (List.Nodup.sublist h4 hnodup)
    have hne : (kept.mergeSort recLE).Pairwise (fun p q : ℕ × ℚ => p.1 ≠ q.1) := by
      have hkeptne : kept.Pairwise (fun p q : ℕ × ℚ => p.1 ≠ q.1) :=
        List.pairwise_map.mp hids
      exact ((List.mergeSort_perm kept recLE).pairwise_iff
        (fun h => Ne.symm h)).mpr hkeptne
    have hstrict : (kept.mergeSort recLE).Pairwise
        (fun p q : ℕ × ℚ => q.2 < p.2 ∨ (p.2 = q.2 ∧ p.1 < q.1)) := by
      refine (hsorted.and hne).imp ?_
      rintro a b ⟨hab, hne'⟩
      unfold recLE at hab
      simp only [Bool.or_eq_true, Bool.and_eq_true, decide_eq_true_eq] at hab
      rcases hab with h | ⟨heq, hle⟩
      · exact Or.inl h
      · exact Or.inr ⟨heq, lt_of_le_of_ne hle hne'⟩
    exact List.Pairwise.sublist (List.take_sublist k _) hstrict

/-- C9 (counterexample): the claim "a listing is included in the
search results if and only if the query matches its name or
neighbourhood case-insensitively" fails as stated, because results are
truncated to `limit`: in the concrete catalog `demoCat` with query "o"
and limit 1, listing `demoB` matches the query yet is not included. -/
theorem search_inclusion_iff_cex :
    matchesQuery "o" demoB = true ∧
      demoB.id ∈ demoCat.map ListingFeatures.id ∧
      demoB.id ∉ (search_listings demoCat "o" 1).map ListingSummary.id := by
  decide

/-- C9 (amended): for every non-empty query and catalog with unique
listing ids, every search result is the summary of a catalog listing
matching the query case-insensitively in name or neighbourhood; and
whenever the matches are not cut off by the limit, a listing is
included in the results if and only if it matches. -/
theorem search_inclusion_amended (cat : List ListingFeatures) (q : String)
    (limit : ℕ) (hq : q ≠ "")
    (hnodup : (cat.map ListingFeatures.id).Nodup) :
    (∀ s ∈ search_listings cat q limit,
      ∃ l ∈ cat, s = toSummary l ∧ matchesQuery q l = true) ∧
      ((cat.filter (fun l => matchesQuery q l)).length ≤ limit →
        ∀ l ∈ cat,
          (l.id ∈ (search_listings cat q limit).map ListingSummary.id ↔
            matchesQuery q l = true)) := by
  unfold search_listings
  rw [if_neg hq]
  constructor
  · intro s hs
    obtain ⟨l, hl1, heq⟩ := List.mem_map.mp hs
    obtain ⟨hlcat, hmatch⟩ := List.mem_filter.mp (List.mem_of_mem_take hl1)
    exact ⟨l, hlcat, heq.symm, hmatch⟩
  · intro hlen l hl
    rw [List.take_of_length_le hlen]
    constructor
    · intro hid
      obtain ⟨s, hs, hsid⟩ := List.mem_map.mp hid
      obtain ⟨l', hl', heq⟩ := List.mem_map.mp hs
      obtain ⟨hl'cat, hl'match⟩ := List.mem_filter.mp hl'
      have hideq : l'.id = l.id := by rw [← hsid, ← heq]; rfl
      have : l' = l := List.inj_on_of_nodup_map hnodup hl'cat hl hideq
      exact this ▸ hl'match
    · intro hm
      exact List.mem_map.mpr ⟨toSummary l,
        List.mem_map.mpr ⟨l, List.mem_filter.mpr ⟨hl, hm⟩, rfl⟩, rfl⟩

/-- Concrete instantiation of the recommendation contract. -/
theorem recommend_contract_witness :
    ∃ res, get_listing_recommendations taxiGeo demoCat defaultWeights 1 2 0 = .ok res ∧
      (∀ p ∈ res, p.1 ≠ 1) ∧
      res.length ≤ 2 ∧
      (∀ p ∈ res, (0 : ℚ) ≤ p.2) ∧
      res.Pairwise (fun p q => q.2 < p.2 ∨ (p.2 = q.2 ∧ p.1 < q.1)) :=
  recommend_contract taxiGeo demoCat defaultWeights 1 2 0 (by decide)
    validWeights_default (by decide) (by decide) (by norm_num) (by norm_num)

/-- Concrete instantiation of the score range property. -/
theorem score_in_unit_interval_witness :
    0 ≤ score taxiGeo defaultWeights demoA demoB ∧
      score taxiGeo defaultWeights demoA demoB ≤ 1 :=
  score_in_unit_interval taxiGeo defaultWeights demoA demoB
    (by norm_num [defaultWeights]) (by norm_num [wSum, defaultWeights])

/-- Concrete instantiation of the self-similarity identity, at a
listing with several absent features. -/
theorem score_self_eq_one_witness :
    score taxiGeo defaultWeights demoB demoB = 1 :=
  score_self_eq_one taxiGeo defaultWeights demoB validWeights_default

/-- Concrete instantiation of the rejected-update property, at the
spec's §8 scenario (price 0.5, location 0.6 — sum 1.1). -/
theorem update_weights_reject_witness :
    update_similarity_weights [("price", (1:ℚ)/2), ("location", 3/5)]
        defaultWeights = (false, defaultWeights) ∧
      get_weights (update_similarity_weights
          [("price", (1:ℚ)/2), ("location", 3/5)] defaultWeights).2 =
        get_weights defaultWeights :=
  update_weights_reject _ _ (Or.inr (Or.inr (by
    have hpw : parseWeights [("price", (1:ℚ)/2), ("location", 3/5)] =
        ⟨1/2, 3/5, 0, 0, 0, 0⟩ := rfl
    rw [hpw]
    norm_num [wSum, tol]
    rw [show |(1 : ℚ)/10| = 1/10 from abs_of_pos (by norm_num)]
    norm_num)))

/-- Concrete instantiation of the NotFound property at an unknown id. -/
theorem recommend_unknown_id_notFound_witness :
    get_listing_recommendations taxiGeo demoCat defaultWeights 99 5 (1/2) =
      .error .NotFound :=
  recommend_unknown_id_notFound taxiGeo demoCat defaultWeights 99 5 (1/2)
    (by decide)

/-- Concrete instantiation of the listing-detail contract. -/
theorem listing_detail_contract_witness :
    (∀ l ∈ demoCat, l.id = 2 → get_listing_details_route demoCat 2 = .ok l) ∧
      (2 ∉ demoCat.map ListingFeatures.id →
        get_listing_details_route demoCat 2 = .error (404, "Listing not found")) :=
  listing_detail_contract demoCat 2 (by decide)

/-- Concrete instantiation of the amended search-inclusion property. -/
theorem search_inclusion_amended_witness :
    (∀ s ∈ search_listings demoCat "o" 5,
      ∃ l ∈ demoCat, s = toSummary l ∧ matchesQuery "o" l = true) ∧
      ((demoCat.filter (fun l => matchesQuery "o" l)).length ≤ 5 →
        ∀ l ∈ demoCat,
          (l.id ∈ (search_listings demoCat "o" 5).map ListingSummary.id ↔
            matchesQuery "o" l = true)) :=
  search_inclusion_amended demoCat "o" 5 (by decide) (by decide)
